import Mathlib

/-!
Verification of the Torero Streaming Service peer (`peer/peer.go`).

The peer serializes `TSP_msg` values with Go's `encoding/gob` package
(`send`, `receive_message_epoll`, `receive_master_list`), so the wire
bytes are gob's: a sequence of gob messages, each preceded by its byte
count (gob's variable-length unsigned integer), carrying first the type
descriptors for `TSP_msg` and `TSP_header` and then the value.  This file
embeds that wire format, byte-exactly for these two struct types,
following the "Encoding details" specification in the documentation of
`encoding/gob`.  It further embeds the peer's catalog string functions
(`get_song_filename`, `get_local_song_info`, ...) and the outcome
behaviour of its command loop and server setup.

Go byte strings are modelled as `List Nat` (each entry `< 256`); Go
`string` values handled by the catalog code are modelled as `List Char`
(all data relevant to the claims is ASCII, on which Go's byte-indexed
string functions agree with their character-level models).
-/

/-! ### gob primitives

`encoding/gob` wire format: an unsigned integer below 128 is sent as a
single byte holding the value; otherwise it is sent as a minimal-length
big-endian byte string preceded by one byte holding the byte count,
negated (that is, `256 - count`).  A signed integer `i` is carried in an
unsigned integer whose bit 0 is the sign: `2*i` for `i ≥ 0` and
`2*(-i-1)+1` for `i < 0`.
-/
/-- Minimal big-endian byte string of `n`, with explicit fuel so that the
definition is structurally recursive (the fuel is always taken `≥ n`). -/
def beBytesAux : Nat → Nat → List Nat
  | 0, _ => []
  | fuel + 1, n => if n = 0 then [] else beBytesAux fuel (n / 256) ++ [n % 256]

/-- Minimal big-endian byte string of `n` (empty for `n = 0`). -/
def beBytes (n : Nat) : List Nat := beBytesAux n n

/-- Value of a big-endian byte string. -/
def beVal (l : List Nat) : Nat := l.foldl (fun acc b => acc * 256 + b) 0

/-- gob encoding of an unsigned integer. -/
def uEnc (n : Nat) : List Nat :=
  if n < 128 then [n] else (256 - (beBytes n).length) :: beBytes n

/-- gob decoding of an unsigned integer from the front of a byte string,
returning the value and the remaining bytes. -/
def uDec : List Nat → Option (Nat × List Nat)
  | [] => none
  | b :: r =>
    if b < 128 then some (b, r)
    else if 256 - b ≤ r.length then
      some (beVal (r.take (256 - b)), r.drop (256 - b))
    else none

/-- The sign-in-bit-0 unsigned carrier of a signed integer. -/
def zig (i : Int) : Nat :=
  if 0 ≤ i then 2 * i.toNat else 2 * (-i - 1).toNat + 1

/-- Inverse of `zig`. -/
def unzig (u : Nat) : Int :=
  if u % 2 = 0 then ((u / 2 : Nat) : Int) else -((u / 2 : Nat) : Int) - 1

/-- gob encoding of a signed integer. -/
def iEnc (i : Int) : List Nat := uEnc (zig i)

/-- gob decoding of a signed integer. -/
def iDec (bs : List Nat) : Option (Int × List Nat) :=
  match uDec bs with
  | none => none
  | some (u, r) => some (unzig u, r)

/-- A gob message frame: the body preceded by its own byte count. -/
def frame (b : List Nat) : List Nat := uEnc b.length ++ b

/-- Parse one gob message frame: read the byte count, then split off that
many bytes. -/
def parseFrame (bs : List Nat) : Option (List Nat × List Nat) :=
  match uDec bs with
  | none => none
  | some (n, r) => if n ≤ r.length then some (r.take n, r.drop n) else none

/-! ### The TSP message types (`peer.go` lines 26-48)

```go
const ( INIT = iota; LIST; INFO; PLAY; STOP; QUIT ... )
type TSP_header struct { Type byte; Song_id int }
type TSP_msg struct { Header TSP_header; Msg []byte }
```
`Type` is a Lean keyword, so the field is named `Type'` here.
-/
def INIT : Nat := 0

def LIST : Nat := 1

def INFO : Nat := 2

def PLAY : Nat := 3

def STOP : Nat := 4

def QUIT : Nat := 5

structure TSP_header where
  Type' : Nat
  Song_id : Int
deriving DecidableEq

structure TSP_msg where
  Header : TSP_header
  Msg : List Nat
deriving DecidableEq

/-- `prepare_msg` (`peer.go` line 270): populates a `TSP_msg`. -/
def prepare_msg (t : Nat) (id : Int) (content : List Nat) : TSP_msg :=
  ⟨⟨t, id⟩, content⟩

/-! ### gob encoding of a `TSP_msg` value

Per the `encoding/gob` documentation, a struct is sent as a sequence of
`(field-number delta, field value)` pairs, deltas unsigned and computed
from the previous field number starting at `-1`; fields at their zero
value are omitted; the struct ends with delta `0`.  A `byte` field is sent
as an unsigned integer, an `int` field as a signed integer, and a `[]byte`
field as an unsigned count followed by the raw bytes.
-/
/-- gob struct-body encoding of a `TSP_header` value
(fields: 0 = `Type` (byte), 1 = `Song_id` (int)). -/
def encHeaderBody (h : TSP_header) : List Nat :=
  (if h.Type' = 0 then [] else 1 :: uEnc h.Type') ++
    ((if h.Song_id = 0 then []
      else (if h.Type' = 0 then 2 else 1) :: iEnc h.Song_id) ++ [0])

/-- gob struct-body encoding of a `TSP_msg` value
(fields: 0 = `Header` (struct), 1 = `Msg` (`[]byte`)); a struct-valued
field is itself omitted when all its fields are zero. -/
def encMsgBody (m : TSP_msg) : List Nat :=
  (if m.Header.Type' = 0 ∧ m.Header.Song_id = 0 then []
   else 1 :: encHeaderBody m.Header) ++
    ((if m.Msg = [] then []
      else (if m.Header.Type' = 0 ∧ m.Header.Song_id = 0 then 2 else 1) ::
        (uEnc m.Msg.length ++ m.Msg)) ++ [0])

/-- The value message body: the (signed) type id of `TSP_msg` followed by
the encoded value.  On a fresh `gob.Encoder` the first user-defined type
receives id 65 (`TSP_msg`), the next one 66 (`TSP_header`). -/
def valueBody (m : TSP_msg) : List Nat := iEnc 65 ++ encMsgBody m

/-! ### gob type-descriptor messages

Before the first value, the encoder sends a descriptor message for each
user-defined type: the pair `(-id, encoded wireType)`, where `wireType` is
a struct whose field 2 (`StructT`) holds a
`structType{CommonType{Name, Id}, Field []*fieldType}` and each
`fieldType` is `{Name string, Id typeId}`.  Pointers are flattened.  The
built-in type ids used here: `int` = 2, `uint` = 3 (Go `byte`), `bytes`
= 5 (Go `[]byte`).  The descriptor of the top-level type (`TSP_msg`) is
sent first, then those of its component types (`TSP_header`).
-/
/-- gob encoding of a string: unsigned byte count, then the raw bytes. -/
def encString (bs : List Nat) : List Nat := uEnc bs.length ++ bs

/-- gob encoding of a `CommonType{Name, Id}` struct value (both fields
nonzero here). -/
def encCommonType (name : List Nat) (id : Int) : List Nat :=
  1 :: encString name ++ 1 :: iEnc id ++ [0]

/-- gob encoding of a `fieldType{Name, Id}` struct value. -/
def encFieldType (f : List Nat × Int) : List Nat :=
  1 :: encString f.1 ++ 1 :: iEnc f.2 ++ [0]

/-- gob encoding of a `structType{CommonType, Field}` struct value: the
`Field` slice is sent as its element count followed by the elements. -/
def encStructTypeBody (name : List Nat) (id : Int)
    (fields : List (List Nat × Int)) : List Nat :=
  1 :: encCommonType name id ++
    1 :: uEnc fields.length ++ (fields.map encFieldType).flatten ++ [0]

/-- gob encoding of a `wireType` value whose `StructT` field (field
number 2, so delta 3) is set. -/
def encWireTypeBody (stBody : List Nat) : List Nat := 3 :: stBody ++ [0]

/-- The name `TSP_msg` as bytes. -/
def nameTSPMsg : List Nat := [84, 83, 80, 95, 109, 115, 103]

/-- The name `TSP_header` as bytes. -/
def nameTSPHeader : List Nat := [84, 83, 80, 95, 104, 101, 97, 100, 101, 114]

/-- The name `Header` as bytes. -/
def nameHeader : List Nat := [72, 101, 97, 100, 101, 114]

/-- The name `Msg` as bytes. -/
def nameMsg : List Nat := [77, 115, 103]

/-- The name `Type` as bytes. -/
def nameType : List Nat := [84, 121, 112, 101]

/-- The name `Song_id` as bytes. -/
def nameSongId : List Nat := [83, 111, 110, 103, 95, 105, 100]

/-- Body of the type-descriptor message for `TSP_msg` (type id 65; its
fields reference `TSP_header` (66) and the built-in `bytes` type (5)). -/
def descrBodyMsg : List Nat :=
  iEnc (-65) ++
    encWireTypeBody (encStructTypeBody nameTSPMsg 65
      [(nameHeader, 66), (nameMsg, 5)])

/-- Body of the type-descriptor message for `TSP_header` (type id 66; its
fields reference the built-in `uint` (3) and `int` (2) types). -/
def descrBodyHdr : List Nat :=
  iEnc (-66) ++
    encWireTypeBody (encStructTypeBody nameTSPHeader 66
      [(nameType, 3), (nameSongId, 2)])

/-- The full byte stream produced by `encoder.Encode(msg)` on the fresh
connection opened by `send` (`peer.go` lines 280-289): the two descriptor
messages then the value message, each framed by its own byte count. -/
def gobEncode (m : TSP_msg) : List Nat :=
  frame descrBodyMsg ++ frame descrBodyHdr ++ frame (valueBody m)

/-! ### gob decoding of a `TSP_msg` value

This is the deserialization performed by `gob.NewDecoder(...).Decode`
in `receive_message_epoll` (`peer.go` lines 138-155) and
`receive_master_list` (lines 399-407), specialized to the `TSP_msg` /
`TSP_header` type pair: the decoder reads count-framed messages, consumes
the two type-descriptor messages sent by a fresh encoder, then parses the
value message (field deltas as sent by the encoder, omitted fields
retaining their zero values) and stops; bytes after the decoded value are
left unread.
-/
/-- Parse a gob struct body as a `TSP_header` (field 0 `Type`: unsigned;
field 1 `Song_id`: signed; terminated by delta 0). -/
def decHeaderBody (bs : List Nat) : Option (TSP_header × List Nat) :=
  match uDec bs with
  | none => none
  | some (d, r) =>
    if d = 0 then some (⟨0, 0⟩, r)
    else if d = 1 then
      match uDec r with
      | none => none
      | some (t, r1) =>
        match uDec r1 with
        | none => none
        | some (d1, r2) =>
          if d1 = 0 then some (⟨t, 0⟩, r2)
          else if d1 = 1 then
            match iDec r2 with
            | none => none
            | some (i, r3) =>
              match uDec r3 with
              | none => none
              | some (d2, r4) => if d2 = 0 then some (⟨t, i⟩, r4) else none
          else none
    else if d = 2 then
      match iDec r with
      | none => none
      | some (i, r1) =>
        match uDec r1 with
        | none => none
        | some (d1, r2) => if d1 = 0 then some (⟨0, i⟩, r2) else none
    else none

/-- Parse a gob struct body as a `TSP_msg` (field 0 `Header`: struct;
field 1 `Msg`: unsigned count then raw bytes; terminated by delta 0). -/
def decMsgBody (bs : List Nat) : Option (TSP_msg × List Nat) :=
  match uDec bs with
  | none => none
  | some (d, r) =>
    if d = 0 then some (⟨⟨0, 0⟩, []⟩, r)
    else if d = 1 then
      match decHeaderBody r with
      | none => none
      | some (h, r1) =>
        match uDec r1 with
        | none => none
        | some (d1, r2) =>
          if d1 = 0 then some (⟨h, []⟩, r2)
          else if d1 = 1 then
            match uDec r2 with
            | none => none
            | some (n, r3) =>
              if n ≤ r3.length then
                match uDec (r3.drop n) with
                | none => none
                | some (d2, r4) =>
                  if d2 = 0 then some (⟨h, r3.take n⟩, r4) else none
              else none
          else none
    else if d = 2 then
      match uDec r with
      | none => none
      | some (n, r1) =>
        if n ≤ r1.length then
          match uDec (r1.drop n) with
          | none => none
          | some (d1, r2) =>
            if d1 = 0 then some (⟨⟨0, 0⟩, r1.take n⟩, r2) else none
        else none
    else none

/-- Parse a gob value-message body: the type id of `TSP_msg` (65) then
the encoded value, which must fill the message exactly. -/
def decodeValueBody (bs : List Nat) : Option TSP_msg :=
  match iDec bs with
  | none => none
  | some (id, r) =>
    if id = 65 then
      match decMsgBody r with
      | some (m, []) => some m
      | _ => none
    else none

/-- Decode one `TSP_msg` from the front of a gob stream produced by a
fresh encoder: the two type-descriptor messages, then the value message.
Bytes following the value message are ignored (`Decode` returns after one
value). -/
def decodeStream (bs : List Nat) : Option TSP_msg :=
  match parseFrame bs with
  | none => none
  | some (b1, r1) =>
    if b1 = descrBodyMsg then
      match parseFrame r1 with
      | none => none
      | some (b2, r2) =>
        if b2 = descrBodyHdr then
          match parseFrame r2 with
          | none => none
          | some (b3, _) => decodeValueBody b3
        else none
    else none

/-- `receive_master_list` (`peer.go` lines 399-407) decodes straight from
the connection's byte stream. -/
def receive_master_list_decode (wire : List Nat) : Option TSP_msg :=
  decodeStream wire

/-- Pad a byte string with zero bytes up to length `n`
(`bytes := make([]byte, 1024)` starts zeroed). -/
def padTo (n : Nat) (xs : List Nat) : List Nat :=
  xs ++ List.replicate (n - xs.length) 0

/-- `receive_message_epoll` (`peer.go` lines 138-146) performs a single
`syscall.Read` into a 1024-byte zeroed buffer and hands the whole buffer
to the gob decoder: the decoder sees at most the first 1024 wire bytes,
padded with zeros to exactly 1024 bytes. -/
def receive_message_epoll_decode (wire : List Nat) : Option TSP_msg :=
  decodeStream (padTo 1024 (wire.take 1024))

/-- A `TSP_msg` representable by the Go values of `peer.go`: `Type` is one
Go `byte`, `Song_id` one 64-bit Go `int`, `Msg` a byte slice (of any
length the tested program could build). -/
def wfMsg (m : TSP_msg) : Prop :=
  m.Header.Type' < 256 ∧ -(2 ^ 63) ≤ m.Header.Song_id ∧
    m.Header.Song_id < 2 ^ 63 ∧ m.Msg.length < 2 ^ 32 ∧ ∀ b ∈ m.Msg, b < 256

/-! ### Claims C1 and C2 -/
/-- The LIST request built by `handle_command` (`peer.go` line 425):
`prepare_msg(LIST, 0, nil)`. -/
def mLIST : TSP_msg := prepare_msg LIST 0 []

/-- A PLAY request as built by `handle_command` (`peer.go` line 430). -/
def mPLAY : TSP_msg := prepare_msg PLAY 7 []

/-- Fixed-width (`w`-byte) big-endian representation of `n`. -/
def beW : Nat → Nat → List Nat
  | 0, _ => []
  | w + 1, n => beW w (n / 256) ++ [n % 256]

/-- The wire layout asserted by the spec for an encoded message:
`[4-byte length][serialized Message]` with the serialized message being a
1-byte type enum, a 4-byte `song_id` integer and a length-prefixed
payload.  The length word may be either endianness and the payload length
prefix any common fixed width; the 4-byte `song_id` bytes are left
unconstrained (most generous reading). -/
def claimedTSPLayout (m : TSP_msg) (bs : List Nat) : Prop :=
  ∃ (w : Nat) (lenF idBytes plBytes : List Nat),
    (w = 1 ∨ w = 2 ∨ w = 4 ∨ w = 8) ∧
    (lenF = beW 4 (5 + w + m.Msg.length) ∨
      lenF = (beW 4 (5 + w + m.Msg.length)).reverse) ∧
    idBytes.length = 4 ∧ plBytes.length = w ∧
    bs = lenF ++ m.Header.Type' :: (idBytes ++ plBytes ++ m.Msg)

/-- An INIT message whose payload (a 1200-byte catalog) is valid for the
protocol but whose gob encoding exceeds the single 1024-byte read of
`receive_message_epoll`. -/
def mBig : TSP_msg := prepare_msg INIT 0 (List.replicate 1200 65)

/-! ### Go string helpers used by the catalog code

Go strings are modelled as `List Char`; all catalog data relevant to the
claims is ASCII, where Go's byte-indexed functions and these
character-level models coincide.
-/
/-- `strings.Split(s, sep)` for the one-character separators used in
`peer.go` (`":"` and `"\n"`). -/
def goSplit (c : Char) : List Char → List (List Char)
  | [] => [[]]
  | a :: t =>
    if a = c then [] :: goSplit c t
    else
      match goSplit c t with
      | [] => [[a]]
      | h :: r => (a :: h) :: r

/-- `strings.Index(s, sub)` for the one-character pattern `">"` used by
`get_song_filename`: index of the first occurrence, `-1` if absent. -/
def indexOfChar (c : Char) : List Char → Int
  | [] => -1
  | a :: t =>
    if a = c then 0
    else
      let r := indexOfChar c t
      if r = -1 then -1 else r + 1

/-- `strings.Replace(s, ", ", "\t", -1)`: replace every leftmost,
non-overlapping occurrence of `", "` by a tab. -/
def replaceCommaSpace : List Char → List Char
  | [] => []
  | [a] => [a]
  | a :: b :: t =>
    if a = ',' ∧ b = ' ' then '\t' :: replaceCommaSpace t
    else a :: replaceCommaSpace (b :: t)

/-- The digits of `n`, most significant first (fuel-structural model of
the digit loop inside `strconv.Itoa`). -/
def natDigitsAux : Nat → Nat → List Char
  | 0, _ => []
  | fuel + 1, n =>
    if n < 10 then [Nat.digitChar n]
    else natDigitsAux fuel (n / 10) ++ [Nat.digitChar (n % 10)]

/-- Decimal digits of a natural number. -/
def natDigits (n : Nat) : List Char := natDigitsAux (n + 1) n

/-- `strconv.Itoa` on a Go `int`. -/
def goItoa (i : Int) : List Char :=
  if i < 0 then '-' :: natDigits (-i).toNat else natDigits i.toNat

/-! ### The song catalog (`peer.go` lines 55, 123-133, 297-313) -/
/-- The process-wide `master_list` variable (`peer.go` line 55) at program
start: the zero value of a Go string, i.e. the empty string. -/
def initial_master_list : List Char := []

/-- The row loop of `get_song_filename`: find the first row whose text
before the first `":"` equals `id`; on a match, replace every `", "` by a
tab, locate the first `">"`, and return the row from two places after it.
Go's slice `r[end+2:]` is modelled by `List.drop`; Go would panic when
`end+2` exceeds the row's length, which cannot happen on rows in the
record format. -/
def song_row_lookup (id : List Char) : List (List Char) → List Char
  | [] => []
  | r :: rest =>
    if (goSplit ':' r).headD [] = id then
      (replaceCommaSpace r).drop
        ((indexOfChar '>' (replaceCommaSpace r) + 2).toNat)
    else song_row_lookup id rest

/-- `get_song_filename` (`peer.go` lines 123-133), with the process-wide
`master_list` passed explicitly: split the master list into rows on
`"\n"` and run the row loop; return the empty string when no row
matches. -/
def get_song_filename (master_list id : List Char) : List Char :=
  song_row_lookup id (goSplit '\n' master_list)

/-- A catalog record's fields. -/
structure CatalogEntry where
  id : List Char
  title : List Char
  artist : List Char
  filename : List Char
deriving DecidableEq

/-- One catalog record in the spec's delimiter scheme
`"<id>: <title>, <artist>> <filename>"`. -/
def renderRow (e : CatalogEntry) : List Char :=
  e.id ++ ':' :: ' ' :: e.title ++ ',' :: ' ' :: e.artist ++
    '>' :: ' ' :: e.filename

/-- Catalog rows joined by `"\n"` (an empty catalog renders as the empty
string). -/
def renderCatalog : List CatalogEntry → List Char
  | [] => []
  | [e] => renderRow e
  | e :: rest => renderRow e ++ '\n' :: renderCatalog rest

/-- The fields contain none of the delimiter characters the parser keys
on (well-formedness of a record in the delimiter scheme). -/
def wfEntry (e : CatalogEntry) : Prop :=
  (':' ∉ e.id ∧ '>' ∉ e.id ∧ ',' ∉ e.id ∧ '\n' ∉ e.id) ∧
    ('>' ∉ e.title ∧ ',' ∉ e.title ∧ '\n' ∉ e.title) ∧
    ('>' ∉ e.artist ∧ ',' ∉ e.artist ∧ '\n' ∉ e.artist) ∧
    (',' ∉ e.filename ∧ '\n' ∉ e.filename)

/-- A concrete two-record catalog used to witness C7. -/
def demoEntries : List CatalogEntry :=
  [⟨['1'], ['S', 'o', 'n', 'g'], ['A', 'r', 't', 'i', 's', 't'],
      ['s', '.', 'm', 'p', '3']⟩,
   ⟨['2'], ['T', 'w', 'o'], ['B', 'a', 'n', 'd'],
      ['f', '2', '.', 'm', 'p', '3']⟩]

/-! ### Claim C6: the local catalog scan -/
/-- One entry of the directory listing returned by `ioutil.ReadDir`. -/
structure DirEntry where
  name : List Char
  content : List Char
deriving DecidableEq

/-- `path.Ext`: the suffix beginning at the final dot, empty when the
name contains no dot. -/
def pathExt (s : List Char) : List Char :=
  let r := s.reverse.takeWhile (fun c => c ≠ '.')
  if r.length = s.length then [] else '.' :: r.reverse

/-- `get_local_song_info` (`peer.go` lines 297-313) over a directory
listing: `song_info := make([]string, len(info_files))` creates
`len(info_files)` empty strings up front, and the loop then *appends*
the content of every file whose extension is `.info` (whatever that
content is — records are not parsed; `ReadFile` errors are discarded). -/
def get_local_song_info (files : List DirEntry) : List (List Char) :=
  files.foldl
    (fun acc f =>
      if pathExt f.name = ['.', 'i', 'n', 'f', 'o'] then acc ++ [f.content]
      else acc)
    (List.replicate files.length [])

/-- A well-formed catalog record. -/
def demo_valid_record : List Char :=
  ['1', ':', ' ', 'S', 'o', 'n', 'g', ',', ' ', 'A', 'r', 't', 'i', 's',
    't', '>', ' ', 's', '.', 'm', 'p', '3']

/-- A malformed record (no `>` delimiter). -/
def demo_malformed_record : List Char :=
  ['g', 'a', 'r', 'b', 'a', 'g', 'e']

/-- A directory with N = 1 valid record, M = 1 malformed `.info` record,
and one non-`.info` file. -/
def demo_dir : List DirEntry :=
  [⟨['a', '.', 'i', 'n', 'f', 'o'], demo_valid_record⟩,
    ⟨['b', '.', 'i', 'n', 'f', 'o'], demo_malformed_record⟩,
    ⟨['c', '.', 't', 'x', 't'], ['x']⟩]

/-! ### Outcome models of the request handler, command loop and server
setup (`peer.go` lines 62-81, 138-155, 163-230, 236-243, 280-289,
420-447) -/
/-- What a dispatched request handler does with a connection. -/
inductive ServeOutcome
  /-- `panic(err)` in `send_mp3_file`, killing the whole process. -/
  | panicked
  /-- The file's bytes were written and the connection closed. -/
  | sent (bytes : List Nat)
  /-- Non-PLAY message: the handler returns without writing (and without
  closing the connection). -/
  | ignored
deriving DecidableEq

/-- `send_mp3_file` (`peer.go` lines 236-243): read
`"songs/" + song_file` and write it to the client; a read error —
including the `EISDIR` produced by the empty filename that an absent song
id resolves to — hits `panic(err)`.  The file system is a partial map
from path to content. -/
def send_mp3_file (fs : List Char → Option (List Nat))
    (song_file : List Char) : ServeOutcome :=
  match fs (['s', 'o', 'n', 'g', 's', '/'] ++ song_file) with
  | none => .panicked
  | some bs => .sent bs

/-- The dispatch of `receive_message_epoll` (`peer.go` lines 148-155) on
a decoded message: a PLAY request resolves the id against the
process-wide master list and streams the file; anything else returns. -/
def receive_message_epoll (fs : List Char → Option (List Nat))
    (master_list : List Char) (in_msg : TSP_msg) : ServeOutcome :=
  if in_msg.Header.Type' = PLAY then
    send_mp3_file fs (get_song_filename master_list (goItoa in_msg.Header.Song_id))
  else .ignored

/-- A file system on which no path resolves (in particular, reading the
directory path `"songs/"` fails with `EISDIR`, as it does on Linux). -/
def fs_empty : List Char → Option (List Nat) := fun _ => none

/-- The interactive commands of `handle_command`
(`peer.go` lines 420-447). -/
inductive Cmd
  | LISTc
  | INFOc
  | PLAYc
  | STOPc
  | QUITc
  | invalid
deriving DecidableEq

/-- How one call to `handle_command` ends. -/
inductive CmdOutcome
  /-- The function returned `v`; the `main` loop continues while
  `v ≥ 0`. -/
  | ret (v : Int)
  /-- The dial-failure path of `send` (`peer.go` lines 282-285): print
  `"error connecting to ..."`, then `os.Exit(1)` — the process dies. -/
  | exitProcess (code : Nat)
  /-- A channel send with no receiver ever: `stop <- true` on the
  unbuffered `stop` channel blocks this goroutine forever. -/
  | blockedForever
deriving DecidableEq

/-- Outcome of one `handle_command` call (`peer.go` lines 420-447).
`trackerReachable` / `peerReachable` say whether the `net.Dial` inside
`send` succeeds for the tracker and for the selected peer;
`activeSessions` counts `receive_mp3` goroutines currently selecting on
the `stop`/`play` channels (one is spawned per PLAY, and it is the only
reader of `stop`). -/
def handle_command (cmd : Cmd) (trackerReachable peerReachable : Bool)
    (activeSessions : Nat) : CmdOutcome :=
  match cmd with
  | .LISTc => if trackerReachable then .ret 0 else .exitProcess 1
  | .INFOc => .ret 0
  | .PLAYc => if peerReachable then .ret 0 else .exitProcess 1
  | .STOPc => if activeSessions = 0 then .blockedForever else .ret 0
  | .QUITc => if trackerReachable then .ret (-1) else .exitProcess 1
  | .invalid => .ret 0

/-- Which syscalls of the `serve_songs_epoll` setup sequence
(`peer.go` lines 163-202) return an error. -/
structure SyscallErrs where
  socketErr : Bool
  setNonblockErr : Bool
  bindErr : Bool
  listenErr : Bool
  epollCreateErr : Bool
  epollCtlErr : Bool
deriving DecidableEq

/-- How the server setup ends: `Socket`, `SetNonblock`, `EpollCreate1`
and `EpollCtl` failures all hit `panic(...)`, but the error returns of
`syscall.Bind` and `syscall.Listen` (lines 189-190) are discarded, so
the loop is entered regardless, recording whether the socket is actually
bound and listening. -/
inductive SetupOutcome
  | panicked
  | enteredLoop (bound listening : Bool)
deriving DecidableEq

/-- The setup sequence of `serve_songs_epoll` as a function of which
syscalls fail. -/
def serve_songs_epoll_setup (e : SyscallErrs) : SetupOutcome :=
  if e.socketErr then .panicked
  else if e.setNonblockErr then .panicked
  else if e.epollCreateErr then .panicked
  else if e.epollCtlErr then .panicked
  else .enteredLoop (!e.bindErr) (!e.listenErr)

/-! ### Claim C10: every outbound dial reuses `args[1]` as the port -/
/-- `TRACKER_IP` (`peer.go` line 35): a fixed IP **ending in a colon**,
to which the port argument is appended. -/
def TRACKER_IP : List Char :=
  ['1', '7', '2', '.', '1', '7', '.', '9', '2', '.', '1', '5', '5', ':']

/-- Re-join split pieces with the separator (the remainder a bounded
`strings.SplitN` leaves unsplit). -/
def interAux (c : Char) : List (List Char) → List Char
  | [] => []
  | [p] => p
  | p :: rest => p ++ c :: interAux c rest

/-- `strings.SplitN(s, sep, n)` for the one-character separator `":"`
used by `get_song_selection`. -/
def goSplitN (c : Char) : Nat → List Char → List (List Char)
  | 0, _ => []
  | 1, s => [s]
  | n + 2, s =>
    match goSplit c s with
    | [] => [s]
    | [p] => [p]
    | p :: rest => p :: goSplitN c (n + 1) (interAux c rest)

/-- The ip extraction of `get_song_selection` (`peer.go` line 383):
`strings.SplitN(s, ":", 3)[1][1:]` — the text between the first and
second colon of the selected row, with its first character (a space)
dropped. -/
def get_song_selection_ip (row : List Char) : List Char :=
  ((goSplitN ':' 3 row).getD 1 []).drop 1

/-- The destination string handed to `net.Dial` by each dialing command
of `handle_command` (`peer.go` lines 426, 431, 441): LIST and QUIT dial
`TRACKER_IP + args[1]`; PLAY dials `peer_ip + args[1]`, where
`get_song_selection` returned `ip + ":"`. -/
def dial_dest (cmd : Cmd) (args1 : List Char) (row : List Char) :
    Option (List Char) :=
  match cmd with
  | .LISTc => some (TRACKER_IP ++ args1)
  | .QUITc => some (TRACKER_IP ++ args1)
  | .PLAYc => some ((get_song_selection_ip row ++ [':']) ++ args1)
  | _ => none

/-- The destination dialed by `become_discoverable`
(`peer.go` line 260): `TRACKER_IP + args[1]`. -/
def become_discoverable_dest (args1 : List Char) : List Char :=
  TRACKER_IP ++ args1

/-! ### Theorems -/

theorem beBytesAux_zero (fuel : Nat) : beBytesAux fuel 0 = [] := by
  cases fuel <;> simp [beBytesAux]

theorem beBytesAux_congr (fuel fuel' n : Nat) (h : n ≤ fuel) (h' : n ≤ fuel') :
    beBytesAux fuel n = beBytesAux fuel' n := by
  induction fuel generalizing fuel' n with
  | zero =>
    have : n = 0 := by omega
    subst this
    simp [beBytesAux_zero]
  | succ f ih =>
    by_cases hn : n = 0
    · subst hn; simp [beBytesAux_zero]
    · obtain ⟨f', rfl⟩ : ∃ f', fuel' = f' + 1 := ⟨fuel' - 1, by omega⟩
      have hd : n / 256 < n := Nat.div_lt_self (Nat.pos_of_ne_zero hn) (by omega)
      simp only [beBytesAux, if_neg hn]
      rw [ih f' (n / 256) (by omega) (by omega)]

theorem beVal_append_singleton (xs : List Nat) (b : Nat) :
    beVal (xs ++ [b]) = beVal xs * 256 + b := by
  simp [beVal, List.foldl_append]

theorem beVal_beBytesAux (fuel n : Nat) (h : n ≤ fuel) :
    beVal (beBytesAux fuel n) = n := by
  induction fuel generalizing n with
  | zero =>
    have : n = 0 := by omega
    subst this
    simp [beBytesAux_zero, beVal]
  | succ f ih =>
    by_cases hn : n = 0
    · subst hn; simp [beBytesAux_zero, beVal]
    · have hd : n / 256 < n := Nat.div_lt_self (Nat.pos_of_ne_zero hn) (by omega)
      simp only [beBytesAux, if_neg hn]
      rw [beVal_append_singleton, ih (n / 256) (by omega)]
      omega

theorem beVal_beBytes (n : Nat) : beVal (beBytes n) = n :=
  beVal_beBytesAux n n (Nat.le_refl n)

theorem beBytesAux_length_le (fuel k n : Nat) (h : n ≤ fuel) (hk : n < 256 ^ k) :
    (beBytesAux fuel n).length ≤ k := by
  induction fuel generalizing k n with
  | zero =>
    have : n = 0 := by omega
    subst this
    simp [beBytesAux_zero]
  | succ f ih =>
    by_cases hn : n = 0
    · subst hn; simp [beBytesAux_zero]
    · have hd : n / 256 < n := Nat.div_lt_self (Nat.pos_of_ne_zero hn) (by omega)
      obtain ⟨k', rfl⟩ : ∃ k', k = k' + 1 := by
        refine ⟨k - 1, ?_⟩
        have : k ≠ 0 := by
          intro h0
          subst h0
          simp at hk
          omega
        omega
      have hdk : n / 256 < 256 ^ k' := by
        rw [Nat.div_lt_iff_lt_mul (by omega : 0 < 256)]
        calc n < 256 ^ (k' + 1) := hk
          _ = 256 ^ k' * 256 := by ring
      simp only [beBytesAux, if_neg hn, List.length_append, List.length_cons,
        List.length_nil]
      have := ih k' (n / 256) (by omega) hdk
      omega

theorem beBytes_length_le (k n : Nat) (hk : n < 256 ^ k) :
    (beBytes n).length ≤ k :=
  beBytesAux_length_le n k n (Nat.le_refl n) hk

theorem beBytes_length_pos (n : Nat) (hn : n ≠ 0) : 1 ≤ (beBytes n).length := by
  obtain ⟨m, rfl⟩ : ∃ m, n = m + 1 := ⟨n - 1, by omega⟩
  simp only [beBytes, beBytesAux, if_neg hn, List.length_append]
  simp

theorem uDec_uEnc (n : Nat) (hn : n < 2 ^ 64) (t : List Nat) :
    uDec (uEnc n ++ t) = some (n, t) := by
  by_cases h : n < 128
  · simp [uEnc, uDec, h]
  · have h256 : n < 256 ^ 8 := by norm_num at hn ⊢; omega
    have h8 : (beBytes n).length ≤ 8 := beBytes_length_le 8 n h256
    have h1 : 1 ≤ (beBytes n).length := beBytes_length_pos n (by omega)
    simp only [uEnc, if_neg h, List.cons_append, uDec]
    rw [if_neg (by omega)]
    have hk : 256 - (256 - (beBytes n).length) = (beBytes n).length := by omega
    rw [hk, if_pos (by simp [List.length_append])]
    rw [List.take_left, List.drop_left, beVal_beBytes]

theorem unzig_zig (i : Int) : unzig (zig i) = i := by
  unfold zig unzig
  by_cases h : 0 ≤ i
  · rw [if_pos h]
    have h2 : 2 * i.toNat % 2 = 0 := by omega
    rw [if_pos h2]
    omega
  · rw [if_neg h]
    have h2 : ¬((2 * (-i - 1).toNat + 1) % 2 = 0) := by omega
    rw [if_neg h2]
    omega

theorem zig_lt (i : Int) (h1 : -(2 ^ 63) ≤ i) (h2 : i < 2 ^ 63) :
    zig i < 2 ^ 64 := by
  unfold zig
  by_cases h : 0 ≤ i
  · rw [if_pos h]
    omega
  · rw [if_neg h]
    omega

theorem iDec_iEnc (i : Int) (h1 : -(2 ^ 63) ≤ i) (h2 : i < 2 ^ 63)
    (t : List Nat) : iDec (iEnc i ++ t) = some (i, t) := by
  unfold iDec iEnc
  rw [uDec_uEnc (zig i) (zig_lt i h1 h2) t]
  simp [unzig_zig]

theorem parseFrame_frame (b : List Nat) (hb : b.length < 2 ^ 64) (t : List Nat) :
    parseFrame (frame b ++ t) = some (b, t) := by
  unfold parseFrame frame
  rw [List.append_assoc, uDec_uEnc b.length hb (b ++ t)]
  simp only [if_pos (by simp : b.length ≤ (b ++ t).length)]
  rw [List.take_left, List.drop_left]

theorem descrBodyMsg_length : descrBodyMsg.length = 41 := by decide

theorem descrBodyHdr_length : descrBodyHdr.length = 45 := by decide

theorem uDec_zero (r : List Nat) : uDec (0 :: r) = some (0, r) := by
  simp [uDec]

theorem uDec_one (r : List Nat) : uDec (1 :: r) = some (1, r) := by
  simp [uDec]

theorem uDec_two (r : List Nat) : uDec (2 :: r) = some (2, r) := by
  simp [uDec]

theorem decHeaderBody_enc (h : TSP_header) (hT : h.Type' < 256)
    (h1 : -(2 ^ 63) ≤ h.Song_id) (h2 : h.Song_id < 2 ^ 63) (t : List Nat) :
    decHeaderBody (encHeaderBody h ++ t) = some (h, t) := by
  obtain ⟨T, S⟩ := h
  simp only at hT h1 h2
  have hT64 : T < 2 ^ 64 := by omega
  by_cases hT0 : T = 0 <;> by_cases hS0 : S = 0
  · subst hT0; subst hS0
    have e : encHeaderBody ⟨0, 0⟩ ++ t = 0 :: t := by
      simp [encHeaderBody]
    rw [e]
    simp [decHeaderBody, uDec_zero]
  · subst hT0
    have e : encHeaderBody ⟨0, S⟩ ++ t = 2 :: (iEnc S ++ 0 :: t) := by
      simp [encHeaderBody, hS0]
    rw [e]
    simp [decHeaderBody, uDec_two, iDec_iEnc S h1 h2, uDec_zero]
  · subst hS0
    have e : encHeaderBody ⟨T, 0⟩ ++ t = 1 :: (uEnc T ++ 0 :: t) := by
      simp [encHeaderBody, hT0]
    rw [e]
    simp [decHeaderBody, uDec_one, uDec_uEnc T hT64, uDec_zero]
  · have e : encHeaderBody ⟨T, S⟩ ++ t = 1 :: (uEnc T ++ 1 :: (iEnc S ++ 0 :: t)) := by
      simp [encHeaderBody, hT0, hS0]
    rw [e]
    simp [decHeaderBody, uDec_one, uDec_uEnc T hT64, iDec_iEnc S h1 h2,
      uDec_zero]

theorem decMsgBody_enc (m : TSP_msg) (hT : m.Header.Type' < 256)
    (h1 : -(2 ^ 63) ≤ m.Header.Song_id) (h2 : m.Header.Song_id < 2 ^ 63)
    (hL : m.Msg.length < 2 ^ 64) (t : List Nat) :
    decMsgBody (encMsgBody m ++ t) = some (m, t) := by
  obtain ⟨h, msg⟩ := m
  simp only at hT h1 h2 hL
  by_cases hh0 : h.Type' = 0 ∧ h.Song_id = 0 <;> by_cases hm0 : msg = []
  · obtain ⟨T, S⟩ := h
    obtain ⟨hh1, hh2⟩ := hh0
    simp only at hh1 hh2
    subst hh1; subst hh2; subst hm0
    have e : encMsgBody ⟨⟨0, 0⟩, []⟩ ++ t = 0 :: t := by
      simp [encMsgBody]
    rw [e]
    simp [decMsgBody, uDec_zero]
  · obtain ⟨T, S⟩ := h
    obtain ⟨hh1, hh2⟩ := hh0
    simp only at hh1 hh2
    subst hh1; subst hh2
    have e : encMsgBody ⟨⟨0, 0⟩, msg⟩ ++ t =
        2 :: (uEnc msg.length ++ (msg ++ 0 :: t)) := by
      simp [encMsgBody, hm0]
    rw [e]
    simp only [decMsgBody, uDec_two, uDec_uEnc msg.length hL]
    have hle : msg.length ≤ (msg ++ 0 :: t).length := by simp
    rw [if_pos hle]
    simp [List.drop_left, List.take_left, uDec_zero]
  · subst hm0
    have e : encMsgBody ⟨h, []⟩ ++ t = 1 :: (encHeaderBody h ++ 0 :: t) := by
      simp [encMsgBody, hh0]
    rw [e]
    simp [decMsgBody, uDec_one, decHeaderBody_enc h hT h1 h2, uDec_zero]
  · have e : encMsgBody ⟨h, msg⟩ ++ t =
        1 :: (encHeaderBody h ++ 1 :: (uEnc msg.length ++ (msg ++ 0 :: t))) := by
      simp [encMsgBody, hh0, hm0]
    rw [e]
    simp only [decMsgBody, uDec_one, decHeaderBody_enc h hT h1 h2,
      uDec_uEnc msg.length hL]
    have hle : msg.length ≤ (msg ++ 0 :: t).length := by simp
    rw [if_pos hle]
    simp [List.drop_left, List.take_left, uDec_zero]

theorem decodeValueBody_enc (m : TSP_msg) (hT : m.Header.Type' < 256)
    (h1 : -(2 ^ 63) ≤ m.Header.Song_id) (h2 : m.Header.Song_id < 2 ^ 63)
    (hL : m.Msg.length < 2 ^ 64) :
    decodeValueBody (valueBody m) = some m := by
  have hd : decMsgBody (encMsgBody m) = some (m, []) := by
    have h0 := decMsgBody_enc m hT h1 h2 hL []
    rwa [List.append_nil] at h0
  simp [decodeValueBody, valueBody, iDec_iEnc 65 (by norm_num) (by norm_num),
    hd]

/-! ### Sizes and well-formedness -/
theorem uEnc_length_le (n : Nat) (hn : n < 2 ^ 64) : (uEnc n).length ≤ 9 := by
  unfold uEnc
  split
  · simp
  · have h256 : n < 256 ^ 8 := by norm_num at hn ⊢; omega
    have := beBytes_length_le 8 n h256
    simp only [List.length_cons]
    omega

theorem encHeaderBody_length_le (h : TSP_header) (hT : h.Type' < 256)
    (h1 : -(2 ^ 63) ≤ h.Song_id) (h2 : h.Song_id < 2 ^ 63) :
    (encHeaderBody h).length ≤ 21 := by
  have e1 := uEnc_length_le h.Type' (by omega)
  have e2 := uEnc_length_le (zig h.Song_id) (zig_lt _ h1 h2)
  unfold encHeaderBody iEnc
  split_ifs <;>
    simp only [List.length_append, List.length_cons, List.length_nil] <;>
    omega

theorem encMsgBody_length_le (m : TSP_msg) (hT : m.Header.Type' < 256)
    (h1 : -(2 ^ 63) ≤ m.Header.Song_id) (h2 : m.Header.Song_id < 2 ^ 63)
    (hL : m.Msg.length < 2 ^ 64) :
    (encMsgBody m).length ≤ m.Msg.length + 33 := by
  have e1 := encHeaderBody_length_le m.Header hT h1 h2
  have e2 := uEnc_length_le m.Msg.length hL
  unfold encMsgBody
  split_ifs <;>
    simp only [List.length_append, List.length_cons, List.length_nil] <;>
    omega

theorem valueBody_length_lt (m : TSP_msg) (hT : m.Header.Type' < 256)
    (h1 : -(2 ^ 63) ≤ m.Header.Song_id) (h2 : m.Header.Song_id < 2 ^ 63)
    (hL : m.Msg.length < 2 ^ 32) :
    (valueBody m).length < 2 ^ 64 := by
  have hL64 : m.Msg.length < 2 ^ 64 := by
    have : (2 : Nat) ^ 32 < 2 ^ 64 := by norm_num
    omega
  have e1 := encMsgBody_length_le m hT h1 h2 hL64
  have e2 : (iEnc 65).length = 2 := by decide
  unfold valueBody
  simp only [List.length_append, e2]
  have : (2 : Nat) ^ 32 + 35 < 2 ^ 64 := by norm_num
  omega

theorem decodeStream_gobEncode (m : TSP_msg) (hw : wfMsg m)
    (junk : List Nat) : decodeStream (gobEncode m ++ junk) = some m := by
  obtain ⟨hT, h1, h2, hL, -⟩ := hw
  have hL64 : m.Msg.length < 2 ^ 64 := by
    have : (2 : Nat) ^ 32 < 2 ^ 64 := by norm_num
    omega
  have hvb : (valueBody m).length < 2 ^ 64 := valueBody_length_lt m hT h1 h2 hL
  have hd1 : descrBodyMsg.length < 2 ^ 64 := by
    rw [descrBodyMsg_length]; norm_num
  have hd2 : descrBodyHdr.length < 2 ^ 64 := by
    rw [descrBodyHdr_length]; norm_num
  unfold gobEncode
  rw [List.append_assoc, List.append_assoc]
  simp [decodeStream, parseFrame_frame descrBodyMsg hd1,
    parseFrame_frame descrBodyHdr hd2, parseFrame_frame (valueBody m) hvb,
    decodeValueBody_enc m hT h1 h2 hL64]

theorem beW_length (w n : Nat) : (beW w n).length = w := by
  induction w generalizing n with
  | zero => simp [beW]
  | succ w ih => simp [beW, ih]

/-- C1 counterexample: the bytes actually put on the wire for the LIST
request do not have the claimed `[4-byte length][1-byte type]
[4-byte song_id][length-prefixed payload]` layout — gob emits two
count-framed type-descriptor messages and a count-framed value message
instead (96 bytes in total, where the claimed layout admits at most 17
for an empty payload). -/
theorem C1_layout_counterexample : ¬ claimedTSPLayout mLIST (gobEncode mLIST) := by
  rintro ⟨w, lenF, idB, plB, hw, hlf, hid, hpl, heq⟩
  have hlen : (gobEncode mLIST).length = 96 := by decide
  have hlenF : lenF.length = 4 := by
    rcases hlf with h | h <;> subst h <;> simp [beW_length]
  rw [heq] at hlen
  simp only [List.length_append, List.length_cons, hlenF, hid, hpl, mLIST,
    prepare_msg, List.length_nil] at hlen
  omega

/-- C1 (amended): every gob message `send` puts on the wire is preceded
by its own byte count, and the stream for one `Encode` call consists of
the `TSP_msg` type descriptor, the `TSP_header` type descriptor, and the
value message, whose body is the type id of `TSP_msg` followed by the
delta-tagged field encoding of the message — not a fixed 4-byte length
plus 1-byte type plus 4-byte id layout. -/
theorem C1_gob_framing_amended (m : TSP_msg)
    (hv : (valueBody m).length < 2 ^ 64) :
    ∃ r1 r2,
      parseFrame (gobEncode m) = some (descrBodyMsg, r1) ∧
      parseFrame r1 = some (descrBodyHdr, r2) ∧
      parseFrame r2 = some (valueBody m, []) ∧
      valueBody m = iEnc 65 ++ encMsgBody m := by
  refine ⟨frame descrBodyHdr ++ frame (valueBody m), frame (valueBody m),
    ?_, ?_, ?_, rfl⟩
  · unfold gobEncode
    rw [List.append_assoc]
    exact parseFrame_frame descrBodyMsg (by rw [descrBodyMsg_length]; norm_num) _
  · exact parseFrame_frame descrBodyHdr (by rw [descrBodyHdr_length]; norm_num) _
  · have h0 := parseFrame_frame (valueBody m) hv []
    rwa [List.append_nil] at h0

/-- Witness for C1 (amended) at the concrete LIST request. -/
theorem C1_gob_framing_amended_witness :
    ∃ r1 r2,
      parseFrame (gobEncode mLIST) = some (descrBodyMsg, r1) ∧
      parseFrame r1 = some (descrBodyHdr, r2) ∧
      parseFrame r2 = some (valueBody mLIST, []) ∧
      valueBody mLIST = iEnc 65 ++ encMsgBody mLIST :=
  C1_gob_framing_amended mLIST (by decide)

/-- C2 (amended): for every message representable by the Go types,
decoding the encoding recovers the message on the stream path used by
`receive_master_list`, and on the single-1024-byte-read path used by
`receive_message_epoll` provided the whole encoding fits into that one
read. -/
theorem C2_roundtrip_amended (m : TSP_msg) (hw : wfMsg m) :
    receive_master_list_decode (gobEncode m) = some m ∧
      ((gobEncode m).length ≤ 1024 →
        receive_message_epoll_decode (gobEncode m) = some m) := by
  constructor
  · have h0 := decodeStream_gobEncode m hw []
    rwa [List.append_nil] at h0
  · intro hlen
    unfold receive_message_epoll_decode padTo
    rw [List.take_of_length_le hlen]
    exact decodeStream_gobEncode m hw _

/-- Witness for C2 (amended) at the concrete PLAY request. -/
theorem C2_roundtrip_amended_witness :
    receive_master_list_decode (gobEncode mPLAY) = some mPLAY ∧
      ((gobEncode mPLAY).length ≤ 1024 →
        receive_message_epoll_decode (gobEncode mPLAY) = some mPLAY) :=
  C2_roundtrip_amended mPLAY (by unfold wfMsg; decide)

/-- C2 counterexample: `mBig` is a valid message, its encoding is longer
than 1024 bytes, and the deserialization performed by
`receive_message_epoll` (one 1024-byte read handed to the gob decoder)
fails on it instead of returning the message — in the Go code the ignored
`Decode` error leaves `in_msg` as the zero-valued `TSP_msg`, not `mBig`. -/
theorem valueBody_mBig :
    valueBody mBig =
      [255, 130] ++ 2 :: (uEnc 1200 ++ (List.replicate 1200 65 ++ [0])) := by
  have h65 : iEnc 65 = [255, 130] := by decide
  show valueBody ⟨⟨0, 0⟩, List.replicate 1200 65⟩ = _
  generalize hR : List.replicate 1200 65 = R
  have hne : R ≠ [] := by
    rw [← hR]
    intro h
    have h2 := congrArg List.length h
    rw [List.length_replicate] at h2
    simp at h2
  have hlenR : R.length = 1200 := by rw [← hR, List.length_replicate]
  simp [valueBody, encMsgBody, h65, hne, hlenR]

theorem valueBody_mBig_length : (valueBody mBig).length = 1207 := by
  have h3 : (uEnc 1200).length = 3 := by decide
  rw [valueBody_mBig]
  simp only [List.length_append, List.length_cons, List.length_nil,
    List.length_replicate, h3]

theorem frame_valueBody_mBig :
    frame (valueBody mBig) = [254, 4, 183] ++ valueBody mBig := by
  have h : uEnc 1207 = [254, 4, 183] := by decide
  unfold frame
  rw [valueBody_mBig_length, h]

theorem C2_roundtrip_counterexample :
    wfMsg mBig ∧ 1024 < (gobEncode mBig).length ∧
      receive_message_epoll_decode (gobEncode mBig) = none := by
  have h42 : (frame descrBodyMsg).length = 42 := by decide
  have h46 : (frame descrBodyHdr).length = 46 := by decide
  have hf3 : (frame (valueBody mBig)).length = 1210 := by
    rw [frame_valueBody_mBig]
    simp only [List.length_append, List.length_cons, List.length_nil,
      valueBody_mBig_length]
  refine ⟨?_, ?_, ?_⟩
  · unfold wfMsg
    refine ⟨?_, ?_, ?_, ?_, ?_⟩
    · norm_num [mBig, prepare_msg, INIT]
    · norm_num [mBig, prepare_msg]
    · norm_num [mBig, prepare_msg]
    · simp only [mBig, prepare_msg, List.length_replicate]
      norm_num
    · intro b hb
      simp only [mBig, prepare_msg, List.mem_replicate] at hb
      omega
  · unfold gobEncode
    simp only [List.length_append]
    omega
  · unfold receive_message_epoll_decode padTo gobEncode
    have e1 : (frame descrBodyMsg ++ frame descrBodyHdr ++
          frame (valueBody mBig)).take 1024 =
        frame descrBodyMsg ++ (frame descrBodyHdr ++
          ([254, 4, 183] ++ (valueBody mBig).take 933)) := by
      rw [List.append_assoc, List.take_append_eq_append_take,
        List.take_of_length_le (by rw [h42]; norm_num), h42,
        List.take_append_eq_append_take,
        List.take_of_length_le (by rw [h46]; norm_num), h46,
        frame_valueBody_mBig, List.take_append_eq_append_take,
        List.take_of_length_le
          (by norm_num : ([254, 4, 183] : List Nat).length ≤ 1024 - 42 - 46)]
      norm_num
    rw [e1]
    have htl : ((valueBody mBig).take 933).length = 933 := by
      rw [List.length_take, valueBody_mBig_length]
      omega
    have hlen1024 : (frame descrBodyMsg ++ (frame descrBodyHdr ++
        ([254, 4, 183] ++ (valueBody mBig).take 933))).length = 1024 := by
      simp only [List.length_append, List.length_cons, List.length_nil]
      omega
    rw [hlen1024]
    simp only [Nat.sub_self, List.replicate_zero, List.append_nil]
    have hd1 : descrBodyMsg.length < 2 ^ 64 := by
      rw [descrBodyMsg_length]; norm_num
    have hd2 : descrBodyHdr.length < 2 ^ 64 := by
      rw [descrBodyHdr_length]; norm_num
    have hparse : parseFrame
        (254 :: 4 :: 183 :: (valueBody mBig).take 933) = none := by
      have hbe : beVal [4, 183] = 1207 := by decide
      simp [parseFrame, uDec, htl, hbe]
    simp [decodeStream, parseFrame_frame descrBodyMsg hd1,
      parseFrame_frame descrBodyHdr hd2, hparse]

/-! ### String lemmas -/
theorem goSplit_not_mem (c : Char) (s : List Char) (h : c ∉ s) :
    goSplit c s = [s] := by
  induction s with
  | nil => simp [goSplit]
  | cons a t ih =>
    simp only [List.mem_cons, not_or] at h
    simp only [goSplit, if_neg (show ¬a = c from fun hh => h.1 hh.symm)]
    rw [ih h.2]

theorem goSplit_append (c : Char) (s t : List Char) (h : c ∉ s) :
    goSplit c (s ++ c :: t) = s :: goSplit c t := by
  induction s with
  | nil => simp [goSplit]
  | cons a s' ih =>
    simp only [List.mem_cons, not_or] at h
    simp only [List.cons_append, goSplit, List.append_eq,
      if_neg (show ¬a = c from fun hh => h.1 hh.symm)]
    rw [ih h.2]

theorem replaceCommaSpace_cons_ne (a : Char) (h : a ≠ ',') (l : List Char) :
    replaceCommaSpace (a :: l) = a :: replaceCommaSpace l := by
  cases l with
  | nil => rfl
  | cons b l' => simp [replaceCommaSpace, h]

theorem replaceCommaSpace_append_of_not_mem (s rest : List Char)
    (h : ',' ∉ s) :
    replaceCommaSpace (s ++ rest) = s ++ replaceCommaSpace rest := by
  induction s with
  | nil => simp
  | cons a s' ih =>
    simp only [List.mem_cons, not_or] at h
    rw [List.cons_append, replaceCommaSpace_cons_ne a (fun hh => h.1 hh.symm),
      ih h.2, List.cons_append]

theorem replaceCommaSpace_of_not_mem (s : List Char) (h : ',' ∉ s) :
    replaceCommaSpace s = s := by
  have h0 := replaceCommaSpace_append_of_not_mem s [] h
  simpa [replaceCommaSpace] using h0

theorem replaceCommaSpace_comma_space (t : List Char) :
    replaceCommaSpace (',' :: ' ' :: t) = '\t' :: replaceCommaSpace t := by
  simp [replaceCommaSpace]

theorem indexOfChar_append (c : Char) (p t : List Char) (h : c ∉ p) :
    indexOfChar c (p ++ c :: t) = p.length := by
  induction p with
  | nil => simp [indexOfChar]
  | cons a p' ih =>
    simp only [List.mem_cons, not_or] at h
    simp only [List.cons_append, indexOfChar, List.append_eq,
      if_neg (show ¬a = c from fun hh => h.1 hh.symm)]
    rw [ih h.2]
    have hne : ((p'.length : Int)) ≠ -1 := by omega
    rw [if_neg hne]
    simp only [List.length_cons]
    push_cast
    ring

theorem drop_prefix_two (p f : List Char) (a b : Char) :
    (p ++ a :: b :: f).drop (p.length + 2) = f := by
  induction p with
  | nil => simp
  | cons x p' ih =>
    simp only [List.cons_append, List.length_cons]
    rw [show p'.length + 1 + 2 = (p'.length + 2) + 1 from by omega]
    simp only [List.drop_succ_cons]
    exact ih

theorem newline_not_mem_renderRow (e : CatalogEntry) (h : wfEntry e) :
    '\n' ∉ renderRow e := by
  obtain ⟨⟨_, _, _, h1⟩, ⟨_, _, h2⟩, ⟨_, _, h3⟩, _, h4⟩ := h
  intro hmem
  simp only [renderRow, List.mem_append, List.mem_cons] at hmem
  simp [h1, h2, h3, h4] at hmem

theorem goSplit_headD_renderRow (e : CatalogEntry) (h : ':' ∉ e.id) :
    (goSplit ':' (renderRow e)).headD [] = e.id := by
  simp only [renderRow, List.append_assoc, List.cons_append]
  rw [goSplit_append ':' e.id _ h]
  rfl

theorem replaceCommaSpace_renderRow (e : CatalogEntry) (hw : wfEntry e) :
    replaceCommaSpace (renderRow e) =
      (e.id ++ ':' :: ' ' :: e.title ++ '\t' :: e.artist) ++
        '>' :: ' ' :: e.filename := by
  obtain ⟨⟨hid1, hid2, hid3, hid4⟩, ⟨ht1, ht2, ht3⟩, ⟨ha1, ha2, ha3⟩,
    hf1, hf2⟩ := hw
  have hshape : renderRow e =
      (e.id ++ ':' :: ' ' :: e.title) ++
        ',' :: ' ' :: (e.artist ++ '>' :: ' ' :: e.filename) := by
    simp [renderRow]
  rw [hshape]
  rw [replaceCommaSpace_append_of_not_mem _ _ (by
    simp only [List.mem_append, List.mem_cons, not_or]
    refine ⟨hid3, ?_, ?_, ht2⟩ <;> decide)]
  rw [replaceCommaSpace_comma_space]
  rw [replaceCommaSpace_of_not_mem _ (by
    simp only [List.mem_append, List.mem_cons, not_or]
    refine ⟨ha2, ?_, ?_, hf1⟩ <;> decide)]
  simp

theorem extract_renderRow (e : CatalogEntry) (hw : wfEntry e) :
    (replaceCommaSpace (renderRow e)).drop
      ((indexOfChar '>' (replaceCommaSpace (renderRow e)) + 2).toNat) =
      e.filename := by
  obtain ⟨⟨hid1, hid2, hid3, hid4⟩, ⟨ht1, ht2, ht3⟩, ⟨ha1, ha2, ha3⟩,
    hf1, hf2⟩ := hw
  rw [replaceCommaSpace_renderRow e
    ⟨⟨hid1, hid2, hid3, hid4⟩, ⟨ht1, ht2, ht3⟩, ⟨ha1, ha2, ha3⟩, hf1, hf2⟩]
  have hmem : '>' ∉ e.id ++ ':' :: ' ' :: e.title ++ '\t' :: e.artist := by
    simp only [List.mem_append, List.mem_cons, not_or]
    refine ⟨⟨hid2, ?_, ?_, ht1⟩, ?_, ha1⟩ <;> decide
  rw [indexOfChar_append '>' _ _ hmem]
  have hcast : (((e.id ++ ':' :: ' ' :: e.title ++ '\t' :: e.artist).length :
      Int) + 2).toNat =
      (e.id ++ ':' :: ' ' :: e.title ++ '\t' :: e.artist).length + 2 := by
    omega
  rw [hcast]
  exact drop_prefix_two _ e.filename '>' ' '

theorem goSplit_renderCatalog (entries : List CatalogEntry)
    (hne : entries ≠ []) (hwf : ∀ e ∈ entries, wfEntry e) :
    goSplit '\n' (renderCatalog entries) = entries.map renderRow := by
  induction entries with
  | nil => simp at hne
  | cons e rest ih =>
    cases rest with
    | nil =>
      simp only [renderCatalog, List.map_cons, List.map_nil]
      rw [goSplit_not_mem _ _ (newline_not_mem_renderRow e (hwf e (by simp)))]
    | cons e2 rest2 =>
      have hstep : renderCatalog (e :: e2 :: rest2) =
          renderRow e ++ '\n' :: renderCatalog (e2 :: rest2) := rfl
      rw [hstep,
        goSplit_append _ _ _ (newline_not_mem_renderRow e (hwf e (by simp))),
        ih (by simp) (fun x hx => hwf x (List.mem_cons_of_mem e hx))]
      simp

theorem song_row_lookup_found (e : CatalogEntry)
    (entries : List CatalogEntry) (hwf : ∀ x ∈ entries, wfEntry x)
    (he : e ∈ entries)
    (hfn : ∀ x ∈ entries, x.id = e.id → x.filename = e.filename) :
    song_row_lookup e.id (entries.map renderRow) = e.filename := by
  induction entries with
  | nil => simp at he
  | cons x rest ih =>
    have hwx : wfEntry x := hwf x (by simp)
    by_cases hx : x.id = e.id
    · simp only [List.map_cons, song_row_lookup]
      rw [goSplit_headD_renderRow x hwx.1.1, if_pos hx]
      rw [extract_renderRow x hwx]
      exact hfn x (by simp) hx
    · simp only [List.map_cons, song_row_lookup]
      rw [goSplit_headD_renderRow x hwx.1.1, if_neg hx]
      have herest : e ∈ rest := by
        rcases List.mem_cons.mp he with h | h
        · exact absurd (h ▸ rfl) hx
        · exact h
      exact ih (fun y hy => hwf y (List.mem_cons_of_mem x hy)) herest
        (fun y hy hyid => hfn y (List.mem_cons_of_mem x hy) hyid)

theorem song_row_lookup_absent (id : List Char)
    (entries : List CatalogEntry) (hwf : ∀ x ∈ entries, wfEntry x)
    (hab : ∀ x ∈ entries, x.id ≠ id) :
    song_row_lookup id (entries.map renderRow) = [] := by
  induction entries with
  | nil => simp [song_row_lookup]
  | cons x rest ih =>
    have hwx : wfEntry x := hwf x (by simp)
    simp only [List.map_cons, song_row_lookup]
    rw [goSplit_headD_renderRow x hwx.1.1, if_neg (hab x (by simp))]
    exact ih (fun y hy => hwf y (List.mem_cons_of_mem x hy))
      (fun y hy => hab y (List.mem_cons_of_mem x hy))

/-! ### Claims C7 and C9 -/
/-- C7: over a catalog of records in the delimiter scheme
`"<id>: <title>, <artist>> <filename>"` (fields free of the delimiter
characters), `get_song_filename` returns exactly the matched record's
filename, and returns the empty string — the code's `SongNotFound`
result — for every nonempty id absent from the catalog. -/
theorem C7_resolve_correct :
    (∀ (entries : List CatalogEntry) (e : CatalogEntry),
        (∀ x ∈ entries, wfEntry x) → e ∈ entries →
        (∀ x ∈ entries, x.id = e.id → x.filename = e.filename) →
        get_song_filename (renderCatalog entries) e.id = e.filename) ∧
      (∀ (entries : List CatalogEntry) (id : List Char),
        (∀ x ∈ entries, wfEntry x) → id ≠ [] →
        (∀ x ∈ entries, x.id ≠ id) →
        get_song_filename (renderCatalog entries) id = []) := by
  constructor
  · intro entries e hwf he hfn
    unfold get_song_filename
    rw [goSplit_renderCatalog entries (by rintro rfl; simp at he)
      (fun x hx => hwf x hx)]
    exact song_row_lookup_found e entries hwf he hfn
  · intro entries id hwf hid hab
    cases entries with
    | nil =>
      show song_row_lookup id (goSplit '\n' (renderCatalog [])) = []
      have h1 : goSplit '\n' (renderCatalog []) = [[]] := rfl
      rw [h1]
      show (if (goSplit ':' []).headD [] = id then _ else
        song_row_lookup id []) = []
      rw [if_neg (show ¬(goSplit ':' []).headD [] = id from
        fun hh => hid (by simpa [goSplit] using hh.symm))]
      rfl
    | cons e rest =>
      unfold get_song_filename
      rw [goSplit_renderCatalog _ (by simp) (fun x hx => hwf x hx)]
      exact song_row_lookup_absent id (e :: rest) hwf hab

/-- Witness for C7 at a concrete catalog: id `"1"` resolves to
`"s.mp3"`, and the absent id `"9"` yields the empty string. -/
theorem C7_resolve_correct_witness :
    get_song_filename (renderCatalog demoEntries) ['1'] =
        ['s', '.', 'm', 'p', '3'] ∧
      get_song_filename (renderCatalog demoEntries) ['9'] = [] := by
  constructor
  · exact C7_resolve_correct.1 demoEntries
      ⟨['1'], ['S', 'o', 'n', 'g'], ['A', 'r', 't', 'i', 's', 't'],
        ['s', '.', 'm', 'p', '3']⟩
      (by unfold wfEntry; decide) (by decide)
      (by decide)
  · exact C7_resolve_correct.2 demoEntries ['9']
      (by unfold wfEntry; decide) (by decide)
      (by decide)

/-- C9: at process start `master_list` is the empty string, so
`get_song_filename` resolves every nonempty id (in particular every id
produced by `strconv.Itoa` in `receive_message_epoll`) to the empty
string: until `receive_master_list` has stored a LIST reply, this peer
can serve no song. -/
theorem C9_initial_master_list_empty :
    initial_master_list = [] ∧
      (∀ id : List Char, id ≠ [] →
        get_song_filename initial_master_list id = []) ∧
      (∀ i : Int, get_song_filename initial_master_list (goItoa i) = []) := by
  have hnd : ∀ n : Nat, natDigits n ≠ [] := by
    intro n
    unfold natDigits natDigitsAux
    split <;> simp
  have hitoa : ∀ i : Int, goItoa i ≠ [] := by
    intro i
    unfold goItoa
    split
    · simp
    · exact hnd _
  have key : ∀ id : List Char, id ≠ [] →
      get_song_filename initial_master_list id = [] := by
    intro id hid
    show song_row_lookup id (goSplit '\n' []) = []
    have h1 : goSplit '\n' ([] : List Char) = [[]] := rfl
    rw [h1]
    show (if (goSplit ':' []).headD [] = id then _ else
      song_row_lookup id []) = []
    rw [if_neg (show ¬(goSplit ':' []).headD [] = id from
      fun hh => hid (by simpa [goSplit] using hh.symm))]
    rfl
  exact ⟨rfl, key, fun i => key _ (hitoa i)⟩

/-- Witness for C9 at the concrete id `"7"`. -/
theorem C9_initial_master_list_empty_witness :
    get_song_filename initial_master_list ['7'] = [] :=
  C9_initial_master_list_empty.2.1 ['7'] (by decide)

/-- C6 (code bug): on a directory with 1 valid and 1 malformed record the
scan yields five entries, not one — three empty placeholder strings from
`make([]string, len(info_files))` followed by the contents of *both*
`.info` files, the malformed record included. -/
theorem C6_catalog_scan_bug :
    get_local_song_info demo_dir =
        [[], [], [], demo_valid_record, demo_malformed_record] ∧
      (get_local_song_info demo_dir).length = 5 ∧
      [] ∈ get_local_song_info demo_dir ∧
      demo_malformed_record ∈ get_local_song_info demo_dir := by
  refine ⟨by decide, by decide, by decide, by decide⟩

/-- C3 (code bug): a PLAY request for an unresolvable song id makes the
handler panic — `get_song_filename` yields the empty string, so
`send_mp3_file` reads the directory `"songs/"` itself, gets an error and
calls `panic(err)`, which kills the whole process instead of closing only
that connection. -/
theorem C3_song_not_found_panics :
    get_song_filename initial_master_list (goItoa 7) = [] ∧
      receive_message_epoll fs_empty initial_master_list
          (prepare_msg PLAY 7 []) = .panicked ∧
      ServeOutcome.panicked ≠ ServeOutcome.ignored := by
  refine ⟨by decide, by decide, by decide⟩

/-- C4 (code bug): STOP with no active playback session sends on the
unbuffered `stop` channel, which no goroutine will ever receive from —
`handle_command` never returns and the command loop hangs, rather than
completing as a no-op. -/
theorem C4_stop_idle_blocks :
    (∀ t p : Bool, handle_command .STOPc t p 0 = .blockedForever) ∧
      CmdOutcome.blockedForever ≠ CmdOutcome.ret 0 := by
  refine ⟨fun t p => rfl, by decide⟩

/-- C5 counterexample: with the tracker unreachable, a LIST command makes
`send` print the error and call `os.Exit(1)` — the process terminates
instead of staying alive for further commands. -/
theorem C5_dial_failure_counterexample :
    handle_command .LISTc false true 0 = .exitProcess 1 ∧
      CmdOutcome.exitProcess 1 ≠ CmdOutcome.ret 0 := by
  refine ⟨rfl, by decide⟩

/-- C5 (amended): when the dial inside `send` fails, the error is printed
and the *process exits with status 1*: the command is aborted by process
termination for LIST, PLAY and QUIT alike, and no further commands are
accepted. -/
theorem C5_dial_failure_amended :
    ∀ (p : Bool) (s : Nat),
      handle_command .LISTc false p s = .exitProcess 1 ∧
        handle_command .QUITc false p s = .exitProcess 1 ∧
        (∀ t : Bool, handle_command .PLAYc t false s = .exitProcess 1) := by
  intro p s
  refine ⟨rfl, rfl, fun t => ?_⟩
  cases t <;> rfl

/-- C8 (code bug): when both `Bind` and `Listen` fail, the server does
not abort — the errors are discarded and the event loop is entered with
a socket that is neither bound nor listening. -/
theorem C8_bind_listen_ignored :
    serve_songs_epoll_setup ⟨false, false, true, true, false, false⟩ =
        .enteredLoop false false ∧
      serve_songs_epoll_setup ⟨false, false, true, true, false, false⟩ ≠
        .panicked := by
  refine ⟨rfl, by decide⟩

/-- C10: every outbound dial destination is some host followed by a colon
and this process's own `<port>` argument `args[1]` — the tracker
exchanges use the fixed tracker IP, and PLAY uses the owning peer's IP
from the master list, but always joined with the local port argument. -/
theorem C10_dial_port_reuse :
    ∀ (args1 row : List Char),
      (∀ (cmd : Cmd) (d : List Char), dial_dest cmd args1 row = some d →
        ∃ host, d = host ++ ':' :: args1) ∧
      (∃ host, become_discoverable_dest args1 = host ++ ':' :: args1) := by
  have htr : TRACKER_IP =
      ['1', '7', '2', '.', '1', '7', '.', '9', '2', '.', '1', '5', '5'] ++
        [':'] := by decide
  intro args1 row
  constructor
  · intro cmd d hd
    cases cmd <;> simp only [dial_dest] at hd
    · have hx := Option.some.inj hd
      exact ⟨['1', '7', '2', '.', '1', '7', '.', '9', '2', '.', '1', '5',
        '5'], by rw [← hx, htr]; simp⟩
    · exact absurd hd (by simp)
    · have hx := Option.some.inj hd
      exact ⟨get_song_selection_ip row, by rw [← hx]; simp⟩
    · exact absurd hd (by simp)
    · have hx := Option.some.inj hd
      exact ⟨['1', '7', '2', '.', '1', '7', '.', '9', '2', '.', '1', '5',
        '5'], by rw [← hx, htr]; simp⟩
    · exact absurd hd (by simp)
  · exact ⟨['1', '7', '2', '.', '1', '7', '.', '9', '2', '.', '1', '5',
      '5'], by unfold become_discoverable_dest; rw [htr]; simp⟩

/-- Witness for C10: the LIST dial with port argument `"8080"` targets
host `172.17.92.155` on port `8080`. -/
theorem C10_dial_port_reuse_witness :
    ∃ host, TRACKER_IP ++ ['8', '0', '8', '0'] =
        host ++ ':' :: ['8', '0', '8', '0'] :=
  (C10_dial_port_reuse ['8', '0', '8', '0'] []).1 Cmd.LISTc
    (TRACKER_IP ++ ['8', '0', '8', '0']) rfl
